import Mathlib

/-!
Verification of the frpmanager process-supervision subsystem (src/app.py).

The supervisor tracks one server instance (frps) and a dictionary of client
instances (frpc).  Each instance has a `ServiceState` record; the façade
operations (`frps_start`, `frpc_start`, `frpc_remove`, `save_file`,
`frps_save`, `_service_status`, ...) and the monitor loop bodies
(`_monitor_frps`, `_monitor_frpc`) mutate those records.

The embedding below is functional: the Python global mutable state
(`FRPS_STATE`, `FRPC_STATES`, the settings file, the set of live monitor
threads) is threaded explicitly, and OS effects (`subprocess.Popen`,
`os.kill`, pid liveness) are oracles bundled in an `OS` record.  Every
operation additionally returns a trace of `Event`s recording launcher
invocations (`_start_process` calls), OS spawns (`Popen` calls), stop
operations (`_stop_process` calls) and SIGTERM deliveries, so that claims
about "exactly one stop followed by one spawn" are statable.

Monitor threads in the source run `while True` daemon loops that never
return, so a thread object stored in `monitor_thread` is alive iff it is
present; the model keeps a `monitor : Bool` flag per record plus a global
list of live monitor threads (one list entry per started thread, tagged
with the instance id it polls).
-/

namespace FrpManager

/-- The `ServiceState` class of src/app.py.  `process` is the tracked pid
(`None` when no process is tracked); `monitor` models
`monitor_thread is not None` (monitor threads never exit, so a stored
thread is always alive). -/
structure ServiceState where
  process : Option Nat
  desired_running : Bool
  last_exit_code : Option Int
  last_error : String
  monitor : Bool
deriving DecidableEq, Repr

/-- `ServiceState.__init__`: no process, not desired, no exit code, empty
error, no monitor thread. -/
def initialServiceState : ServiceState :=
  { process := none, desired_running := false, last_exit_code := none,
    last_error := "", monitor := false }

/-- One registered frpc instance in settings (`{"id": ..., "config": ...}`). -/
structure Instance where
  id : String
  config : String
deriving DecidableEq, Repr

/-- The slice of the settings dictionary the supervisor reads:
`frpc_instances`, `services.frps.config`, `frpc_path`, `frps_path`. -/
structure Settings where
  frpc_instances : List Instance
  frps_config : String
  frpc_path : String
  frps_path : String
deriving DecidableEq, Repr

/-- Which instance an event belongs to: the frps server or an frpc client. -/
inductive Target where
  | frps : Target
  | frpc : String → Target
deriving DecidableEq, Repr

/-- Observable actions of one supervisor operation:
`launch t b c` — `_start_process(b, c, state-of-t)` was invoked;
`popen t argv` — `subprocess.Popen(argv)` was invoked;
`stopOp t` — `_stop_process(state-of-t)` was invoked;
`sigterm t pid` — `os.kill(pid, SIGTERM)` was attempted. -/
inductive Event where
  | launch : Target → String → String → Event
  | popen : Target → List String → Event
  | stopOp : Target → Event
  | sigterm : Target → Nat → Event
deriving DecidableEq, Repr

/-- The instance an event acts on. -/
def Event.target : Event → Target
  | .launch t _ _ => t
  | .popen t _ => t
  | .stopOp t => t
  | .sigterm t _ => t

/-- OS oracles: pid liveness (`/proc` lookup or `os.kill(pid, 0)`), and
`subprocess.Popen` returning either a pid or the exception detail. -/
structure OS where
  procAlive : Nat → Bool
  popen : List String → Except String Nat

/-- Error message set by `_start_process` when `config_path` is falsy. -/
def configMissingMsg : String := "请先选择配置文件"

/-- Error message set by `_start_process` when `build_command` returns `None`. -/
def binaryMissingMsg : String := "请先设置程序路径"

/-- Error message set by `_start_process` when `Popen` raises. -/
def spawnFailedMsg (detail : String) : String := "启动失败: " ++ detail

/-- `build_command`: `None` if `binary` is falsy, else `[binary, "-c", config_path]`. -/
def buildCommand (binary config_path : String) : Option (List String) :=
  if binary = "" then none else some [binary, "-c", config_path]

/-- `_start_process(binary, config_path, state)`: the Process Launcher.
Returns the updated state and the events it performed. -/
def startProcess (os : OS) (t : Target) (binary config_path : String)
    (state : ServiceState) : ServiceState × List Event :=
  if config_path = "" then
    ({ state with last_error := configMissingMsg }, [.launch t binary config_path])
  else
    match buildCommand binary config_path with
    | none =>
        ({ state with last_error := binaryMissingMsg }, [.launch t binary config_path])
    | some command =>
        match os.popen command with
        | .error exc =>
            ({ state with last_error := spawnFailedMsg exc },
             [.launch t binary config_path, .popen t command])
        | .ok pid =>
            ({ state with process := some pid, last_error := "" },
             [.launch t binary config_path, .popen t command])

/-- `_stop_process(state)`: no-op when no process is tracked; otherwise send
SIGTERM (any delivery failure is swallowed) and clear the handle
unconditionally, without waiting for exit. -/
def stopProcess (t : Target) (state : ServiceState) : ServiceState × List Event :=
  match state.process with
  | none => (state, [.stopOp t])
  | some pid => ({ state with process := none }, [.stopOp t, .sigterm t pid])

/-- `is_running(state)`: false when no pid is tracked, otherwise the OS
existence check on the pid (`/proc/<pid>` or `os.kill(pid, 0)`; both are
pure existence probes, modelled by the single `procAlive` oracle). -/
def isRunning (os : OS) (state : ServiceState) : Bool :=
  match state.process with
  | none => false
  | some pid => os.procAlive pid

/-! ### The in-memory registry `FRPC_STATES`

A Python dict from instance id to `ServiceState`, modelled as an
insertion-ordered association list with unique keys. -/

/-- The `FRPC_STATES` dictionary. -/
abbrev StateMap := List (String × ServiceState)

/-- Dictionary lookup `FRPC_STATES.get(id)`. -/
def lookupState : StateMap → String → Option ServiceState
  | [], _ => none
  | (k, v) :: rest, id => if k = id then some v else lookupState rest id

/-- Dictionary assignment `FRPC_STATES[id] = st` (in Python, mutating the
object found at `id` has the same effect on the dict as re-assigning the
key; absent keys are appended, matching dict insertion order). -/
def setState : StateMap → String → ServiceState → StateMap
  | [], id, st => [(id, st)]
  | (k, v) :: rest, id, st =>
      if k = id then (id, st) :: rest else (k, v) :: setState rest id st

/-- `FRPC_STATES.pop(id, None)`: drop the (first) binding of `id`. -/
def removeState : StateMap → String → StateMap
  | [], _ => []
  | (k, v) :: rest, id => if k = id then rest else (k, v) :: removeState rest id

/-- `_ensure_frpc_state(instance_id)`: return the record for the id,
creating (and inserting) a fresh `ServiceState` when absent.  Returns the
record together with the possibly-extended dictionary. -/
def ensureFrpcState (m : StateMap) (id : String) : ServiceState × StateMap :=
  match lookupState m id with
  | some st => (st, m)
  | none => (initialServiceState, m ++ [(id, initialServiceState)])

/-- `_find_instance(settings, instance_id)`: first registered frpc instance
with the given id. -/
def findInstance (s : Settings) (id : String) : Option Instance :=
  s.frpc_instances.find? (fun i => i.id = id)

/-- `_start_frps()`: read the frps binary path and config path from settings
(re-loaded at this moment) and invoke the Process Launcher on `FRPS_STATE`. -/
def startFrps (os : OS) (s : Settings) (state : ServiceState) :
    ServiceState × List Event :=
  startProcess os .frps s.frps_path s.frps_config state

/-- `_start_frpc(instance_id)`: look the instance up in settings (re-loaded
at this moment); if absent, return silently without invoking the launcher;
otherwise invoke the Process Launcher on the ensured record with the frpc
binary path and the instance's bound config path. -/
def startFrpc (os : OS) (s : Settings) (id : String) (m : StateMap) :
    StateMap × List Event :=
  match findInstance s id with
  | none => (m, [])
  | some inst =>
      let em := ensureFrpcState m id
      let r := startProcess os (.frpc id) s.frpc_path inst.config em.1
      (setState em.2 id r.1, r.2)

/-! ### Monitor loop bodies (one tick) -/

/-- One tick of `_monitor_frps` (the body of the `while True` loop, after
`time.sleep(1.5)`, under the lock). -/
def frpsTick (os : OS) (s : Settings) (state : ServiceState) :
    ServiceState × List Event :=
  if !state.desired_running then
    match state.process with
    | none => (state, [])
    | some _ => stopProcess .frps state
  else if !(isRunning os state) then
    startFrps os s { state with process := none }
  else (state, [])

/-- One tick of `_monitor_frpc(instance_id)` (the loop body, under the
lock), acting on the registry record for the id (the loop's captured
`state` object; `_start_frpc` re-fetches the same record through
`_ensure_frpc_state`). -/
def frpcTick (os : OS) (s : Settings) (id : String) (m : StateMap) :
    StateMap × List Event :=
  let em := ensureFrpcState m id
  let state := em.1
  if !state.desired_running then
    match state.process with
    | none => (em.2, [])
    | some _ =>
        let r := stopProcess (.frpc id) state
        (setState em.2 id r.1, r.2)
  else if !(isRunning os state) then
    startFrpc os s id (setState em.2 id { state with process := none })
  else (em.2, [])

/-! ### Global supervisor state and the Supervisor Façade -/

/-- The whole supervisor-visible global state: settings (as `load_settings`
returns them / `save_settings` persists them), `FRPS_STATE`, `FRPC_STATES`,
and the live monitor threads.  Monitor threads are `while True` daemon
loops and never exit, so each started thread stays live forever:
`liveFrpcMonitors` holds one entry per started frpc monitor thread (the
instance id it polls), `liveFrpsMonitors` counts started frps monitor
threads. -/
structure World where
  settings : Settings
  frpsState : ServiceState
  frpcStates : StateMap
  liveFrpcMonitors : List String
  liveFrpsMonitors : Nat
deriving DecidableEq, Repr

/-- `_ensure_monitor_frps()`: if `FRPS_STATE.monitor_thread` holds a (live)
thread, do nothing; otherwise start a new monitor thread and store it. -/
def ensureMonitorFrps (w : World) : World :=
  if w.frpsState.monitor then w
  else
    { w with frpsState := { w.frpsState with monitor := true },
             liveFrpsMonitors := w.liveFrpsMonitors + 1 }

/-- `_ensure_monitor_frpc(instance_id)`: ensure the record exists; if its
`monitor_thread` holds a (live) thread, do nothing; otherwise start a new
`_monitor_frpc(instance_id)` thread and store it. -/
def ensureMonitorFrpc (id : String) (w : World) : World :=
  let em := ensureFrpcState w.frpcStates id
  if em.1.monitor then { w with frpcStates := em.2 }
  else
    { w with frpcStates := setState em.2 id { em.1 with monitor := true },
             liveFrpcMonitors := w.liveFrpcMonitors ++ [id] }

/-- `frps_start` (route `/service/frps/start`): set `desired_running`,
ensure the monitor, then immediately attempt a spawn. -/
def frpsStart (os : OS) (w : World) : World × List Event :=
  let w1 := { w with frpsState := { w.frpsState with desired_running := true } }
  let w2 := ensureMonitorFrps w1
  let r := startFrps os w2.settings w2.frpsState
  ({ w2 with frpsState := r.1 }, r.2)

/-- `frps_stop`: clear `desired_running` and stop any tracked process. -/
def frpsStop (w : World) : World × List Event :=
  let st1 := { w.frpsState with desired_running := false }
  let r := stopProcess .frps st1
  ({ w with frpsState := r.1 }, r.2)

/-- `frps_restart`: set `desired_running`, stop any tracked process, ensure
the monitor, then immediately spawn afresh. -/
def frpsRestart (os : OS) (w : World) : World × List Event :=
  let st1 := { w.frpsState with desired_running := true }
  let r1 := stopProcess .frps st1
  let w2 := ensureMonitorFrps { w with frpsState := r1.1 }
  let r2 := startFrps os w2.settings w2.frpsState
  ({ w2 with frpsState := r2.1 }, r1.2 ++ r2.2)

/-- The `state.desired_running = True` step of `frpc_start` /
`frpc_restart`: ensure the record and set the flag. -/
def setDesiredTrue (id : String) (w : World) : World :=
  { w with
    frpcStates := setState (ensureFrpcState w.frpcStates id).2 id
                    { (ensureFrpcState w.frpcStates id).1 with
                      desired_running := true } }

/-- The locked block of `frpc_start`: ensure the record, set
`desired_running`, ensure the monitor, then immediately attempt a spawn. -/
def frpcStartLocked (os : OS) (id : String) (w : World) : World × List Event :=
  let w2 := ensureMonitorFrpc id (setDesiredTrue id w)
  let r := startFrpc os w2.settings id w2.frpcStates
  ({ w2 with frpcStates := r.1 }, r.2)

/-- `frpc_start` (route `/service/frpc/start`): `abort(404)` when the id is
not registered in settings (nothing mutated); otherwise run the locked
block. -/
def frpcStart (os : OS) (id : String) (w : World) :
    Except String (World × List Event) :=
  match findInstance w.settings id with
  | none => .error "UnknownInstance"
  | some _ => .ok (frpcStartLocked os id w)

/-- `frpc_stop`: ensure the record, clear `desired_running`, stop any
tracked process (no registration check). -/
def frpcStop (id : String) (w : World) : World × List Event :=
  let em := ensureFrpcState w.frpcStates id
  let st1 := { em.1 with desired_running := false }
  let r := stopProcess (.frpc id) st1
  ({ w with frpcStates := setState em.2 id r.1 }, r.2)

/-- `frpc_restart`: ensure the record, set `desired_running`, stop any
tracked process, ensure the monitor, then immediately attempt a spawn (no
registration check). -/
def frpcRestart (os : OS) (id : String) (w : World) : World × List Event :=
  let em := ensureFrpcState w.frpcStates id
  let st1 := { em.1 with desired_running := true }
  let r1 := stopProcess (.frpc id) st1
  let w1 := { w with frpcStates := setState em.2 id r1.1 }
  let w2 := ensureMonitorFrpc id w1
  let r2 := startFrpc os w2.settings id w2.frpcStates
  ({ w2 with frpcStates := r2.1 }, r1.2 ++ r2.2)

/-- `frpc_remove` (route `/service/frpc/remove`): filter the instance out of
`settings.frpc_instances` and save; then pop the `ServiceState` record out
of `FRPC_STATES`; if one was present, clear its `desired_running` and stop
its tracked process.  The popped record is returned as the middle
component: after the call only the instance's (never-cancelled) monitor
thread still references it. -/
def frpcRemove (id : String) (w : World) :
    World × Option ServiceState × List Event :=
  let s2 := { w.settings with
    frpc_instances := w.settings.frpc_instances.filter (fun i => i.id ≠ id) }
  match lookupState w.frpcStates id with
  | none => ({ w with settings := s2 }, none, [])
  | some st =>
      let st1 := { st with desired_running := false }
      let r := stopProcess (.frpc id) st1
      ({ w with settings := s2, frpcStates := removeState w.frpcStates id },
       some r.1, r.2)

/-! ### Bulk status (`_service_status`) -/

/-- One row of the status dictionary returned by `_service_status`. -/
structure StatusRow where
  id : String
  running : Bool
  desired : Bool
  config : String
  path : String
  error : String
deriving DecidableEq, Repr

/-- The row `_service_status` builds for one frpc instance from its
(ensured) record. -/
def mkFrpcRow (os : OS) (s : Settings) (inst : Instance) (st : ServiceState) :
    StatusRow :=
  { id := inst.id, running := isRunning os st, desired := st.desired_running,
    config := inst.config, path := s.frpc_path, error := st.last_error }

/-- The frpc loop of `_service_status`: build one row per registered
instance, ensuring each record (which inserts missing records). -/
def statusRows (os : OS) (s : Settings) :
    List Instance → StateMap → List StatusRow × StateMap
  | [], m => ([], m)
  | inst :: rest, m =>
      let em := ensureFrpcState m inst.id
      let r := statusRows os s rest em.2
      (mkFrpcRow os s inst em.1 :: r.1, r.2)

/-- `_service_status()`: the frps row, the frpc rows, and the
possibly-extended `FRPC_STATES` dictionary.  No `ServiceState` field is
assigned anywhere in the source of `_service_status`, which the return type
reflects: only the dictionary (through `_ensure_frpc_state`) can change. -/
def serviceStatus (os : OS) (s : Settings) (frpsSt : ServiceState)
    (m : StateMap) : StatusRow × List StatusRow × StateMap :=
  let r := statusRows os s s.frpc_instances m
  ({ id := "frps", running := isRunning os frpsSt,
     desired := frpsSt.desired_running, config := s.frps_config,
     path := s.frps_path, error := frpsSt.last_error },
   r.1, r.2)

/-! ### Config-save handlers (`save_file`, `frps_save`) -/

/-- The frpc part of `save_file`'s locked block: for each registered
instance whose non-empty bound config path resolves to the saved file,
ensure its record and, when `desired_running`, stop then immediately
re-spawn with the (re-read) settings. -/
def saveFileFrpcLoop (os : OS) (resolve : String → String) (s : Settings)
    (filePath : String) : List Instance → StateMap → StateMap × List Event
  | [], m => (m, [])
  | inst :: rest, m =>
      if inst.config ≠ "" ∧ resolve inst.config = filePath then
        let em := ensureFrpcState m inst.id
        if em.1.desired_running then
          let r1 := stopProcess (.frpc inst.id) em.1
          let r2 := startFrpc os s inst.id (setState em.2 inst.id r1.1)
          let r3 := saveFileFrpcLoop os resolve s filePath rest r2.1
          (r3.1, r1.2 ++ r2.2 ++ r3.2)
        else
          saveFileFrpcLoop os resolve s filePath rest em.2
      else saveFileFrpcLoop os resolve s filePath rest m

/-- The frps part of `save_file`'s locked block: restart frps if its
non-empty bound config resolves to the saved file and it is desired
running. -/
def saveFileFrpsPart (os : OS) (resolve : String → String) (s : Settings)
    (filePath : String) (frpsSt : ServiceState) : ServiceState × List Event :=
  if s.frps_config ≠ "" ∧ resolve s.frps_config = filePath ∧
      frpsSt.desired_running then
    let r1 := stopProcess .frps frpsSt
    let r2 := startFrps os s r1.1
    (r2.1, r1.2 ++ r2.2)
  else (frpsSt, ([] : List Event))

/-- The locked block of `save_file(filename)` after the file is written:
the frps part, then the frpc loop. -/
def saveFileSupervise (os : OS) (resolve : String → String) (s : Settings)
    (filePath : String) (frpsSt : ServiceState) (m : StateMap) :
    ServiceState × StateMap × List Event :=
  let fr := saveFileFrpsPart os resolve s filePath frpsSt
  let r3 := saveFileFrpcLoop os resolve s filePath s.frpc_instances m
  (fr.1, r3.1, fr.2 ++ r3.2)

/-- `frps_save` (route `/frps/save`): write the file, bind
`services.frps.config` to it, save settings, then — under the lock — if
frps is desired running, stop and immediately re-spawn with the updated
settings. -/
def frpsSave (os : OS) (filePath : String) (s : Settings)
    (frpsSt : ServiceState) : Settings × ServiceState × List Event :=
  let s2 := { s with frps_config := filePath }
  if frpsSt.desired_running then
    let r1 := stopProcess .frps frpsSt
    let r2 := startFrps os s2 r1.1
    (s2, r2.1, r1.2 ++ r2.2)
  else (s2, frpsSt, [])

/-! ### Instance-id validation and sanitisation -/

/-- The character set of `_validate_instance_id` / `_sanitize_instance_id`. -/
def allowedChars : List Char :=
  "abcdefghijklmnopqrstuvwxyzABCDEFGHIJKLMNOPQRSTUVWXYZ0123456789-_".toList

/-- `_validate_instance_id`: non-empty and every character allowed. -/
def validateInstanceId (id : String) : Bool :=
  if id = "" then false else id.toList.all (fun ch => allowedChars.contains ch)

/-- The characters Python's `str.strip("-_")` removes from either end. -/
def stripSet : List Char := ['-', '_']

/-- `_sanitize_instance_id`: replace every disallowed character by `'-'`,
then strip leading and trailing `'-'`/`'_'`. -/
def sanitizeInstanceId (raw : String) : String :=
  let cleaned := raw.toList.map
    (fun ch => if allowedChars.contains ch then ch else '-')
  let l1 := cleaned.dropWhile (fun ch => stripSet.contains ch)
  let l2 := (l1.reverse.dropWhile (fun ch => stripSet.contains ch)).reverse
  String.mk l2

/-- The id `frpc_add` derives from a config file name when the user supplies
none: the file's base name, with a trailing `.toml` removed
(`endswith(".toml")` then `[:-5]`, expressed on the character list: the
last five characters equal `.toml` iff the reversed list starts with the
reversed suffix), sanitised. -/
def deriveInstanceId (fileName : String) : String :=
  let l := fileName.toList
  let base :=
    if l.reverse.take 5 = (".toml".toList).reverse
    then (l.reverse.drop 5).reverse else l
  sanitizeInstanceId (String.mk base)

/-! ### Concrete scenario constants (used by closed counterexamples and
witnesses) -/

/-- An OS in which no pid is alive and any spawn succeeds with pid 7. -/
def demoOS : OS := ⟨fun _ => false, fun _ => .ok 7⟩

/-- Settings registering a single frpc instance `"a"` bound to `c.toml`. -/
def demoSettings : Settings :=
  { frpc_instances := [{ id := "a", config := "c.toml" }], frps_config := "",
    frpc_path := "frpc-bin", frps_path := "" }

/-- Settings registering no frpc instances. -/
def emptySettings : Settings :=
  { frpc_instances := [], frps_config := "", frpc_path := "frpc-bin",
    frps_path := "" }

/-- A record that wants to run, tracks no process, and carries a stale
error — the shape `frpc_restart` of an unregistered id leaves behind. -/
def boomState : ServiceState :=
  { process := none, desired_running := true, last_exit_code := none,
    last_error := "boom", monitor := true }

/-- A record that wants to run and still tracks the (dead) pid 5. -/
def staleState : ServiceState :=
  { process := some 5, desired_running := true, last_exit_code := none,
    last_error := "old", monitor := true }

/-- A world with instance `"a"` registered, running (record `staleState`),
and one live monitor thread for it. -/
def demoWorld : World :=
  { settings := demoSettings, frpsState := initialServiceState,
    frpcStates := [("a", staleState)], liveFrpcMonitors := ["a"],
    liveFrpsMonitors := 0 }

/-- A freshly booted world: instance `"a"` registered, no records, no
monitor threads. -/
def cleanWorld : World :=
  { settings := demoSettings, frpsState := initialServiceState,
    frpcStates := [], liveFrpcMonitors := [], liveFrpsMonitors := 0 }

/-! ### Trace filtering helpers -/

/-- Control events: stop-operation invocations and launcher invocations
(the spec's `stop` and `spawn` operations), as opposed to the OS-level
`popen`/`sigterm` sub-events they may emit. -/
def Event.isCtl : Event → Bool
  | .launch _ _ _ => true
  | .stopOp _ => true
  | _ => false

/-- All events of a trace acting on instance `t`. -/
def eventsFor (t : Target) (tr : List Event) : List Event :=
  tr.filter (fun e => decide (e.target = t))

/-- The stop-operation and launcher-invocation events acting on `t`. -/
def stopLaunchFor (t : Target) (tr : List Event) : List Event :=
  tr.filter (fun e => decide (e.target = t) && e.isCtl)

/-! ### Registry lemmas -/

theorem lookupState_append (m m' : StateMap) (id : String) :
    lookupState (m ++ m') id =
      ((lookupState m id).rec (lookupState m' id) (fun v => some v)) := by
  induction m with
  | nil => simp [lookupState]
  | cons kv rest ih =>
      obtain ⟨k, v⟩ := kv
      by_cases h : k = id <;> simp [lookupState, h, ih]

theorem lookupState_setState_self (m : StateMap) (id : String)
    (st : ServiceState) : lookupState (setState m id st) id = some st := by
  induction m with
  | nil => simp [setState, lookupState]
  | cons kv rest ih =>
      obtain ⟨k, v⟩ := kv
      by_cases h : k = id <;> simp [setState, lookupState, h, ih]

theorem lookupState_setState_ne (m : StateMap) (id id' : String)
    (st : ServiceState) (h : id' ≠ id) :
    lookupState (setState m id st) id' = lookupState m id' := by
  induction m with
  | nil => simp [setState, lookupState, Ne.symm h]
  | cons kv rest ih =>
      obtain ⟨k, v⟩ := kv
      by_cases hk : k = id
      · subst hk
        simp [setState, lookupState, Ne.symm h]
      · by_cases hk' : k = id' <;> simp [setState, lookupState, hk, hk', h, ih]

theorem setState_setState_self (m : StateMap) (id : String)
    (a b : ServiceState) : setState (setState m id a) id b = setState m id b := by
  induction m with
  | nil => simp [setState]
  | cons kv rest ih =>
      obtain ⟨k, v⟩ := kv
      by_cases h : k = id <;> simp [setState, h, ih]

theorem ensureFrpcState_of_some (m : StateMap) (id : String)
    (st : ServiceState) (h : lookupState m id = some st) :
    ensureFrpcState m id = (st, m) := by
  simp [ensureFrpcState, h]

theorem ensureFrpcState_of_none (m : StateMap) (id : String)
    (h : lookupState m id = none) :
    ensureFrpcState m id = (initialServiceState, m ++ [(id, initialServiceState)]) := by
  simp [ensureFrpcState, h]

theorem lookupState_ensure_self (m : StateMap) (id : String) :
    lookupState (ensureFrpcState m id).2 id = some (ensureFrpcState m id).1 := by
  unfold ensureFrpcState
  cases h : lookupState m id with
  | some st => simp [h]
  | none => simp [h, lookupState_append, lookupState]

theorem lookupState_ensure_ne (m : StateMap) (id id' : String) (h : id' ≠ id) :
    lookupState (ensureFrpcState m id).2 id' = lookupState m id' := by
  unfold ensureFrpcState
  cases hl : lookupState m id with
  | some st => simp
  | none =>
      simp only [lookupState_append, lookupState, if_neg (Ne.symm h)]
      cases lookupState m id' <;> rfl

theorem lookupState_ensure_preserved (m : StateMap) (id id' : String)
    (st : ServiceState) (h : lookupState m id' = some st) :
    lookupState (ensureFrpcState m id).2 id' = some st := by
  by_cases he : id' = id
  · subst he
    rw [ensureFrpcState_of_some m id' st h]
    exact h
  · rw [lookupState_ensure_ne m id id' he]
    exact h

/-! ### Field-preservation lemmas for the launcher and stop -/

theorem startProcess_preserves_desired (os : OS) (t : Target)
    (b c : String) (st : ServiceState) :
    (startProcess os t b c st).1.desired_running = st.desired_running := by
  by_cases hc : c = ""
  · simp [startProcess, hc]
  · by_cases hb : b = ""
    · simp [startProcess, buildCommand, hc, hb]
    · simp only [startProcess, buildCommand, if_neg hc, if_neg hb]
      cases os.popen [b, "-c", c] <;> simp

theorem startProcess_preserves_monitor (os : OS) (t : Target)
    (b c : String) (st : ServiceState) :
    (startProcess os t b c st).1.monitor = st.monitor := by
  by_cases hc : c = ""
  · simp [startProcess, hc]
  · by_cases hb : b = ""
    · simp [startProcess, buildCommand, hc, hb]
    · simp only [startProcess, buildCommand, if_neg hc, if_neg hb]
      cases os.popen [b, "-c", c] <;> simp

theorem startProcess_events (os : OS) (t : Target) (b c : String)
    (st : ServiceState) :
    ((startProcess os t b c st).2.filter (fun e => e.isCtl)) = [.launch t b c] ∧
      ∀ e ∈ (startProcess os t b c st).2, e.target = t := by
  by_cases hc : c = ""
  · simp [startProcess, hc, Event.isCtl, Event.target]
  · by_cases hb : b = ""
    · simp [startProcess, buildCommand, hc, hb, Event.isCtl, Event.target]
    · simp only [startProcess, buildCommand, if_neg hc, if_neg hb]
      cases os.popen [b, "-c", c] <;>
        simp [Event.isCtl, Event.target]

theorem stopProcess_events (t : Target) (st : ServiceState) :
    ((stopProcess t st).2.filter (fun e => e.isCtl)) = [.stopOp t] ∧
      ∀ e ∈ (stopProcess t st).2, e.target = t := by
  unfold stopProcess
  cases st.process <;> simp [Event.isCtl, Event.target]

/-! ### Lemmas about `statusRows` -/

theorem statusRows_preserves (os : OS) (s : Settings) (insts : List Instance) :
    ∀ (m : StateMap) (id : String) (st : ServiceState),
      lookupState m id = some st →
      lookupState (statusRows os s insts m).2 id = some st := by
  induction insts with
  | nil => intro m id st h; simpa [statusRows]
  | cons inst rest ih =>
      intro m id st h
      unfold statusRows
      exact ih _ _ _ (lookupState_ensure_preserved _ _ _ _ h)

theorem lookupState_append_single_self (m : StateMap) (id : String)
    (v : ServiceState) (h : lookupState m id = none) :
    lookupState (m ++ [(id, v)]) id = some v := by
  rw [lookupState_append, h]
  simp [lookupState]

theorem statusRows_creates_default (os : OS) (s : Settings)
    (insts : List Instance) :
    ∀ (m : StateMap) (id : String), lookupState m id = none →
      lookupState (statusRows os s insts m).2 id = none ∨
      lookupState (statusRows os s insts m).2 id = some initialServiceState := by
  induction insts with
  | nil => intro m id h; left; simpa [statusRows]
  | cons inst rest ih =>
      intro m id h
      unfold statusRows
      by_cases he : id = inst.id
      · rw [he] at h ⊢
        right
        apply statusRows_preserves
        rw [ensureFrpcState_of_none m inst.id h]
        exact lookupState_append_single_self m inst.id initialServiceState h
      · have h2 : lookupState (ensureFrpcState m inst.id).2 id = none := by
          rw [lookupState_ensure_ne _ _ _ he]; exact h
        exact ih _ _ h2

theorem statusRows_fst (os : OS) (s : Settings) :
    ∀ (insts : List Instance) (m : StateMap),
      (insts.map (fun i => i.id)).Nodup →
      (statusRows os s insts m).1 =
        insts.map (fun inst =>
          mkFrpcRow os s inst
            ((lookupState m inst.id).getD initialServiceState)) := by
  intro insts
  induction insts with
  | nil => intro m _; simp [statusRows]
  | cons inst rest ih =>
      intro m hnd
      rw [List.map_cons, List.nodup_cons] at hnd
      unfold statusRows
      simp only [List.map_cons]
      congr 1
      · cases h : lookupState m inst.id with
        | some st => rw [ensureFrpcState_of_some m inst.id st h]; simp [h]
        | none => rw [ensureFrpcState_of_none m inst.id h]; simp [h]
      · rw [ih _ hnd.2]
        apply List.map_congr_left
        intro inst' hmem
        have hne : inst'.id ≠ inst.id := by
          intro hcontra
          exact hnd.1 (hcontra ▸ List.mem_map_of_mem (fun i => i.id) hmem)
        rw [lookupState_ensure_ne _ _ _ hne]

/-! ### Claim theorems -/

/-! ### Lemmas about the config-save restart loop -/

theorem ensureFrpcState_fst (m : StateMap) (id : String) :
    (ensureFrpcState m id).1 = (lookupState m id).getD initialServiceState := by
  unfold ensureFrpcState
  cases lookupState m id <;> rfl

theorem startFrpc_events_target (os : OS) (s : Settings) (id : String)
    (m : StateMap) : ∀ e ∈ (startFrpc os s id m).2, e.target = .frpc id := by
  unfold startFrpc
  cases h : findInstance s id with
  | none => simp
  | some inst =>
      intro e he
      exact (startProcess_events os (.frpc id) s.frpc_path inst.config
        (ensureFrpcState m id).1).2 e he

theorem startFrpc_lookup_ne (os : OS) (s : Settings) (id : String)
    (m : StateMap) (id' : String) (h : id' ≠ id) :
    lookupState (startFrpc os s id m).1 id' = lookupState m id' := by
  unfold startFrpc
  cases hf : findInstance s id with
  | none => rfl
  | some inst =>
      show lookupState (setState (ensureFrpcState m id).2 id _) id' = _
      rw [lookupState_setState_ne _ _ _ _ h, lookupState_ensure_ne _ _ _ h]

theorem eventsFor_append (t : Target) (a b : List Event) :
    eventsFor t (a ++ b) = eventsFor t a ++ eventsFor t b :=
  List.filter_append _ _

theorem stopLaunchFor_append (t : Target) (a b : List Event) :
    stopLaunchFor t (a ++ b) = stopLaunchFor t a ++ stopLaunchFor t b :=
  List.filter_append _ _

theorem eventsFor_nil_of_ne_target (t : Target) (l : List Event)
    (h : ∀ e ∈ l, e.target ≠ t) : eventsFor t l = [] := by
  refine List.filter_eq_nil_iff.2 (fun e he => ?_)
  simp [h e he]

theorem stopLaunchFor_nil_of_ne_target (t : Target) (l : List Event)
    (h : ∀ e ∈ l, e.target ≠ t) : stopLaunchFor t l = [] := by
  refine List.filter_eq_nil_iff.2 (fun e he => ?_)
  simp [h e he]

theorem stopLaunchFor_of_all_target (t : Target) (l : List Event)
    (h : ∀ e ∈ l, e.target = t) :
    stopLaunchFor t l = l.filter (fun e => e.isCtl) := by
  refine List.filter_congr (fun e he => ?_)
  simp [h e he]

theorem find_inst_of_mem_nodup : ∀ (l : List Instance) (inst : Instance),
    inst ∈ l → (l.map (fun i => i.id)).Nodup →
    l.find? (fun i => i.id = inst.id) = some inst := by
  intro l
  induction l with
  | nil => intro inst h _; exact absurd h (List.not_mem_nil inst)
  | cons head rest ih =>
      intro inst h hnd
      rw [List.map_cons, List.nodup_cons] at hnd
      rcases List.mem_cons.1 h with h1 | h2
      · subst h1
        rw [List.find?_cons_of_pos]
        simp
      · have hne : head.id ≠ inst.id := by
          intro hcontra
          exact hnd.1 (hcontra ▸ List.mem_map_of_mem (fun i => i.id) h2)
        rw [List.find?_cons_of_neg]
        · exact ih inst h2 hnd.2
        · simp [hne]

theorem findInstance_of_mem_nodup (s : Settings) (inst : Instance)
    (h : inst ∈ s.frpc_instances)
    (hnd : (s.frpc_instances.map (fun i => i.id)).Nodup) :
    findInstance s inst.id = some inst :=
  find_inst_of_mem_nodup s.frpc_instances inst h hnd

theorem loop_events_targets (os : OS) (resolve : String → String)
    (s : Settings) (filePath : String) :
    ∀ (insts : List Instance) (m : StateMap),
      ∀ e ∈ (saveFileFrpcLoop os resolve s filePath insts m).2,
        ∃ inst ∈ insts, e.target = .frpc inst.id := by
  intro insts
  induction insts with
  | nil => intro m e he; exact absurd he (by simp [saveFileFrpcLoop] at he ⊢)
  | cons head rest ih =>
      intro m e he
      unfold saveFileFrpcLoop at he
      by_cases hcond : head.config ≠ "" ∧ resolve head.config = filePath
      · rw [if_pos hcond] at he
        by_cases hdes : (ensureFrpcState m head.id).1.desired_running
        · rw [if_pos hdes] at he
          simp only [List.append_assoc, List.mem_append] at he
          rcases he with h1 | h2 | h3
          · exact ⟨head, List.mem_cons_self head rest,
              (stopProcess_events (.frpc head.id) _).2 e h1⟩
          · exact ⟨head, List.mem_cons_self head rest,
              startFrpc_events_target os s head.id _ e h2⟩
          · obtain ⟨inst, hmem, ht⟩ := ih _ e h3
            exact ⟨inst, List.mem_cons_of_mem head hmem, ht⟩
        · rw [if_neg hdes] at he
          obtain ⟨inst, hmem, ht⟩ := ih _ e he
          exact ⟨inst, List.mem_cons_of_mem head hmem, ht⟩
      · rw [if_neg hcond] at he
        obtain ⟨inst, hmem, ht⟩ := ih _ e he
        exact ⟨inst, List.mem_cons_of_mem head hmem, ht⟩

theorem loop_lookup_frame (os : OS) (resolve : String → String)
    (s : Settings) (filePath : String) :
    ∀ (insts : List Instance) (m : StateMap) (id : String),
      (∀ inst ∈ insts, inst.id ≠ id) →
      lookupState (saveFileFrpcLoop os resolve s filePath insts m).1 id =
        lookupState m id := by
  intro insts
  induction insts with
  | nil => intro m id _; rfl
  | cons head rest ih =>
      intro m id hne
      have hhead : head.id ≠ id := hne head (List.mem_cons_self head rest)
      have hrest : ∀ inst ∈ rest, inst.id ≠ id :=
        fun inst hmem => hne inst (List.mem_cons_of_mem head hmem)
      unfold saveFileFrpcLoop
      by_cases hcond : head.config ≠ "" ∧ resolve head.config = filePath
      · rw [if_pos hcond]
        by_cases hdes : (ensureFrpcState m head.id).1.desired_running
        · rw [if_pos hdes]
          show lookupState (saveFileFrpcLoop os resolve s filePath rest
            (startFrpc os s head.id _).1).1 id = _
          rw [ih _ id hrest, startFrpc_lookup_ne _ _ _ _ _ (Ne.symm hhead),
            lookupState_setState_ne _ _ _ _ (Ne.symm hhead),
            lookupState_ensure_ne _ _ _ (Ne.symm hhead)]
        · rw [if_neg hdes]
          rw [ih _ id hrest, lookupState_ensure_ne _ _ _ (Ne.symm hhead)]
      · rw [if_neg hcond]
        exact ih _ id hrest

theorem startFrpc_of_found (os : OS) (s : Settings) (id : String)
    (m : StateMap) (inst : Instance) (h : findInstance s id = some inst) :
    startFrpc os s id m =
      (setState (ensureFrpcState m id).2 id
        (startProcess os (.frpc id) s.frpc_path inst.config
          (ensureFrpcState m id).1).1,
       (startProcess os (.frpc id) s.frpc_path inst.config
          (ensureFrpcState m id).1).2) := by
  simp [startFrpc, h]

theorem loop_spec (os : OS) (resolve : String → String) (s : Settings)
    (filePath : String) :
    ∀ (insts : List Instance) (m : StateMap),
      (insts.map (fun i => i.id)).Nodup →
      ∀ inst ∈ insts, inst.config ≠ "" → resolve inst.config = filePath →
      findInstance s inst.id = some inst →
      (((lookupState m inst.id).getD initialServiceState).desired_running = true →
        stopLaunchFor (.frpc inst.id)
          (saveFileFrpcLoop os resolve s filePath insts m).2 =
          [.stopOp (.frpc inst.id),
           .launch (.frpc inst.id) s.frpc_path inst.config]) ∧
      (((lookupState m inst.id).getD initialServiceState).desired_running = false →
        eventsFor (.frpc inst.id)
          (saveFileFrpcLoop os resolve s filePath insts m).2 = [] ∧
        lookupState (saveFileFrpcLoop os resolve s filePath insts m).1 inst.id =
          some ((lookupState m inst.id).getD initialServiceState)) := by
  intro insts
  induction insts with
  | nil => intro m _ inst h; exact absurd h (List.not_mem_nil inst)
  | cons head rest ih =>
      intro m hnd inst hmem hc hr hfind
      rw [List.map_cons, List.nodup_cons] at hnd
      have hrestne : ∀ inst' ∈ rest, inst'.id ≠ inst.id → True := fun _ _ _ => trivial
      rcases List.mem_cons.1 hmem with h1 | h2
      · subst h1
        have hcond : inst.config ≠ "" ∧ resolve inst.config = filePath := ⟨hc, hr⟩
        have hneRest : ∀ e ∈ (saveFileFrpcLoop os resolve s filePath rest
            (startFrpc os s inst.id
              (setState (ensureFrpcState m inst.id).2 inst.id
                (stopProcess (.frpc inst.id) (ensureFrpcState m inst.id).1).1)).1).2,
            e.target ≠ Target.frpc inst.id := by
          intro e he
          obtain ⟨inst', hmem', ht⟩ := loop_events_targets os resolve s filePath
            rest _ e he
          rw [ht]
          intro hcontra
          have : inst'.id = inst.id := by injection hcontra
          exact hnd.1 (this ▸ List.mem_map_of_mem (fun i => i.id) hmem')
        constructor
        · intro hdt
          have hdes : (ensureFrpcState m inst.id).1.desired_running = true := by
            rw [ensureFrpcState_fst]; exact hdt
          unfold saveFileFrpcLoop
          rw [if_pos hcond, if_pos hdes, stopLaunchFor_append, stopLaunchFor_append]
          rw [stopLaunchFor_of_all_target _ _
              (stopProcess_events (.frpc inst.id) _).2,
            (stopProcess_events (.frpc inst.id) _).1,
            stopLaunchFor_of_all_target _ _ (startFrpc_events_target os s inst.id _),
            stopLaunchFor_nil_of_ne_target _ _ hneRest]
          rw [startFrpc_of_found os s inst.id _ inst hfind,
            (startProcess_events os (.frpc inst.id) s.frpc_path inst.config _).1]
          rfl
        · intro hdf
          have hdes : ¬ ((ensureFrpcState m inst.id).1.desired_running = true) := by
            rw [ensureFrpcState_fst, hdf]; exact Bool.false_ne_true
          unfold saveFileFrpcLoop
          rw [if_pos hcond, if_neg hdes]
          have hneRest2 : ∀ e ∈ (saveFileFrpcLoop os resolve s filePath rest
              (ensureFrpcState m inst.id).2).2, e.target ≠ Target.frpc inst.id := by
            intro e he
            obtain ⟨inst', hmem', ht⟩ := loop_events_targets os resolve s filePath
              rest _ e he
            rw [ht]
            intro hcontra
            have : inst'.id = inst.id := by injection hcontra
            exact hnd.1 (this ▸ List.mem_map_of_mem (fun i => i.id) hmem')
          refine ⟨eventsFor_nil_of_ne_target _ _ hneRest2, ?_⟩
          rw [loop_lookup_frame os resolve s filePath rest _ inst.id
              (fun inst' hmem' => fun hcontra =>
                hnd.1 (hcontra ▸ List.mem_map_of_mem (fun i => i.id) hmem')),
            lookupState_ensure_self, ensureFrpcState_fst]
      · have hne : head.id ≠ inst.id := by
          intro hcontra
          exact hnd.1 (hcontra ▸ List.mem_map_of_mem (fun i => i.id) h2)
        unfold saveFileFrpcLoop
        by_cases hcond : head.config ≠ "" ∧ resolve head.config = filePath
        · rw [if_pos hcond]
          by_cases hdes : (ensureFrpcState m head.id).1.desired_running
          · rw [if_pos hdes]
            have htrans : lookupState (startFrpc os s head.id
                (setState (ensureFrpcState m head.id).2 head.id
                  (stopProcess (.frpc head.id) (ensureFrpcState m head.id).1).1)).1
                inst.id = lookupState m inst.id := by
              rw [startFrpc_lookup_ne _ _ _ _ _ (Ne.symm hne),
                lookupState_setState_ne _ _ _ _ (Ne.symm hne),
                lookupState_ensure_ne _ _ _ (Ne.symm hne)]
            have hIH := ih (startFrpc os s head.id
              (setState (ensureFrpcState m head.id).2 head.id
                (stopProcess (.frpc head.id) (ensureFrpcState m head.id).1).1)).1
              hnd.2 inst h2 hc hr hfind
            rw [htrans] at hIH
            have hstop : ∀ e ∈ (stopProcess (.frpc head.id)
                (ensureFrpcState m head.id).1).2, e.target ≠ Target.frpc inst.id := by
              intro e he
              rw [(stopProcess_events (.frpc head.id) _).2 e he]
              intro hcontra
              exact hne (by injection hcontra)
            have hstart : ∀ e ∈ (startFrpc os s head.id
                (setState (ensureFrpcState m head.id).2 head.id
                  (stopProcess (.frpc head.id) (ensureFrpcState m head.id).1).1)).2,
                e.target ≠ Target.frpc inst.id := by
              intro e he
              rw [startFrpc_events_target os s head.id _ e he]
              intro hcontra
              exact hne (by injection hcontra)
            constructor
            · intro hdt
              rw [stopLaunchFor_append, stopLaunchFor_append,
                stopLaunchFor_nil_of_ne_target _ _ hstop,
                stopLaunchFor_nil_of_ne_target _ _ hstart,
                List.nil_append, List.nil_append]
              exact hIH.1 hdt
            · intro hdf
              refine ⟨?_, hIH.2 hdf |>.2⟩
              rw [eventsFor_append, eventsFor_append,
                eventsFor_nil_of_ne_target _ _ hstop,
                eventsFor_nil_of_ne_target _ _ hstart,
                List.nil_append, List.nil_append]
              exact (hIH.2 hdf).1
          · rw [if_neg hdes]
            have htrans : lookupState (ensureFrpcState m head.id).2 inst.id =
                lookupState m inst.id :=
              lookupState_ensure_ne _ _ _ (Ne.symm hne)
            have hIH := ih (ensureFrpcState m head.id).2 hnd.2 inst h2 hc hr hfind
            rw [htrans] at hIH
            exact hIH
        · rw [if_neg hcond]
          exact ih _ hnd.2 inst h2 hc hr hfind

/-- C1 counterexample: `_service_status` is not registry-preserving.  With
one registered instance `"a"` and an empty `FRPC_STATES`, the bulk status
call inserts a fresh `ServiceState` for `"a"` (via `_ensure_frpc_state`),
changing the set of records in the in-memory registry. -/
theorem serviceStatus_mutates_registry_counterexample :
    (serviceStatus demoOS demoSettings initialServiceState []).2.2 =
      [("a", initialServiceState)] ∧
    ([] : StateMap) ≠ [("a", initialServiceState)] := by
  decide

/-- C1 (amended): the bulk status operation returns, for the server and for
every registered client instance, the row `{running: isAlive(handle),
desired: desiredRunning, config, lastError}` (plus the binary path), and
mutates no field of any `ServiceState` already in the registry — every
pre-existing record survives unchanged, and `FRPS_STATE` is untouched by
construction (the operation's type carries no updated frps state, matching
the absence of any assignment in the source).  It is however not
registry-set-preserving: for a registered instance with no record yet it
inserts a fresh default record (and rows for such instances are computed
from that default). -/
theorem serviceStatus_semantics (os : OS) (s : Settings)
    (frpsSt : ServiceState) (m : StateMap)
    (hnd : (s.frpc_instances.map (fun i => i.id)).Nodup) :
    (serviceStatus os s frpsSt m).1 =
      { id := "frps", running := isRunning os frpsSt,
        desired := frpsSt.desired_running, config := s.frps_config,
        path := s.frps_path, error := frpsSt.last_error } ∧
    (serviceStatus os s frpsSt m).2.1 =
      s.frpc_instances.map (fun inst =>
        mkFrpcRow os s inst ((lookupState m inst.id).getD initialServiceState)) ∧
    (∀ id st, lookupState m id = some st →
      lookupState (serviceStatus os s frpsSt m).2.2 id = some st) ∧
    (∀ id, lookupState m id = none →
      lookupState (serviceStatus os s frpsSt m).2.2 id = none ∨
      lookupState (serviceStatus os s frpsSt m).2.2 id = some initialServiceState) := by
  refine ⟨rfl, ?_, ?_, ?_⟩
  · exact statusRows_fst os s s.frpc_instances m hnd
  · intro id st h
    exact statusRows_preserves os s s.frpc_instances m id st h
  · intro id h
    exact statusRows_creates_default os s s.frpc_instances m id h

/-- Witness for C1: with instance `"a"` registered and a live tracked
process, the status rows report it running with its config, and the
pre-existing record is preserved verbatim. -/
theorem serviceStatus_semantics_witness :
    (serviceStatus ⟨fun _ => true, fun _ => .ok 7⟩ demoSettings
        initialServiceState [("a", staleState)]).2.1 =
      [{ id := "a", running := true, desired := true, config := "c.toml",
         path := "frpc-bin", error := "old" }] ∧
    lookupState (serviceStatus ⟨fun _ => true, fun _ => .ok 7⟩ demoSettings
        initialServiceState [("a", staleState)]).2.2 "a" = some staleState := by
  have h := serviceStatus_semantics ⟨fun _ => true, fun _ => .ok 7⟩
    demoSettings initialServiceState [("a", staleState)] (by decide)
  refine ⟨?_, h.2.2.1 "a" staleState (by decide)⟩
  rw [h.2.1]
  decide

/-- C4: `_start_process` error semantics.  If the config path is empty it
records the config-missing error and performs no OS spawn (no `popen`
event), leaving the process handle untouched — regardless of the binary
path, so the config check precedes the binary check.  Otherwise, if the
binary path is empty it records the binary-missing error, again without
spawning.  Otherwise it invokes `Popen` on exactly `[binary, "-c",
config]`; if the OS refuses with detail `exc`, `last_error` becomes the
spawn-failed message and the handle is untouched; on success the new pid is
stored and `last_error` is cleared to `""`. -/
theorem startProcess_error_semantics (os : OS) (t : Target)
    (binary config_path : String) (st : ServiceState) :
    (config_path = "" →
      startProcess os t binary config_path st =
        ({ st with last_error := configMissingMsg },
         [.launch t binary config_path])) ∧
    (config_path ≠ "" → binary = "" →
      startProcess os t binary config_path st =
        ({ st with last_error := binaryMissingMsg },
         [.launch t binary config_path])) ∧
    (config_path ≠ "" → binary ≠ "" →
      (∀ exc, os.popen [binary, "-c", config_path] = .error exc →
        startProcess os t binary config_path st =
          ({ st with last_error := spawnFailedMsg exc },
           [.launch t binary config_path,
            .popen t [binary, "-c", config_path]])) ∧
      (∀ pid, os.popen [binary, "-c", config_path] = .ok pid →
        startProcess os t binary config_path st =
          ({ st with process := some pid, last_error := "" },
           [.launch t binary config_path,
            .popen t [binary, "-c", config_path]]))) := by
  refine ⟨fun hc => ?_, fun hc hb => ?_, fun hc hb => ⟨fun exc he => ?_, fun pid hp => ?_⟩⟩
  · simp [startProcess, hc]
  · simp [startProcess, buildCommand, hc, hb]
  · simp [startProcess, buildCommand, hc, hb, he]
  · simp [startProcess, buildCommand, hc, hb, hp]

/-- Witness for C4: concrete evaluations of two branches — empty config
with a nonempty binary yields the config-missing error (config check
first), and a successful spawn stores the pid and clears the error. -/
theorem startProcess_error_semantics_witness :
    startProcess ⟨fun _ => true, fun _ => .ok 41⟩ .frps "frps-bin" ""
        initialServiceState =
      ({ initialServiceState with last_error := configMissingMsg },
       [.launch .frps "frps-bin" ""]) ∧
    startProcess ⟨fun _ => true, fun _ => .ok 41⟩ .frps "frps-bin" "a.toml"
        initialServiceState =
      ({ initialServiceState with process := some 41, last_error := "" },
       [.launch .frps "frps-bin" "a.toml",
        .popen .frps ["frps-bin", "-c", "a.toml"]]) :=
  ⟨(startProcess_error_semantics ⟨fun _ => true, fun _ => .ok 41⟩ .frps
      "frps-bin" "" initialServiceState).1 rfl,
   ((startProcess_error_semantics ⟨fun _ => true, fun _ => .ok 41⟩ .frps
      "frps-bin" "a.toml" initialServiceState).2.2 (by decide) (by decide)).2
      41 rfl⟩

/-- C8: `_stop_process`.  With no tracked process it is a no-op on the
state (only the stop-operation invocation itself is observable); with a
tracked pid it sends exactly one SIGTERM to that pid and unconditionally
clears the handle.  In both cases `desired_running` and `last_error` are
untouched.  The model is a total function that consults no kill-result
oracle: signal-delivery failures cannot influence the result (the source
swallows them with `except Exception: pass`), and no exception escapes. -/
theorem stopProcess_semantics (t : Target) (st : ServiceState) :
    (st.process = none → stopProcess t st = (st, [.stopOp t])) ∧
    (∀ pid, st.process = some pid →
      stopProcess t st =
        ({ st with process := none }, [.stopOp t, .sigterm t pid])) ∧
    (stopProcess t st).1.desired_running = st.desired_running ∧
    (stopProcess t st).1.last_error = st.last_error := by
  refine ⟨fun h => ?_, fun pid h => ?_, ?_, ?_⟩
  · simp [stopProcess, h]
  · simp [stopProcess, h]
  · unfold stopProcess; cases st.process <;> simp
  · unfold stopProcess; cases st.process <;> simp

/-- Witness for C8: stopping a tracked pid 9 clears the handle and sends
SIGTERM to 9; stopping with no tracked process changes nothing. -/
theorem stopProcess_semantics_witness :
    stopProcess (.frpc "a")
        { initialServiceState with process := some 9, desired_running := true } =
      ({ initialServiceState with process := none, desired_running := true },
       [.stopOp (.frpc "a"), .sigterm (.frpc "a") 9]) ∧
    stopProcess .frps initialServiceState = (initialServiceState, [.stopOp .frps]) :=
  ⟨(stopProcess_semantics (.frpc "a")
      { initialServiceState with process := some 9, desired_running := true }).2.1
      9 rfl,
   (stopProcess_semantics .frps initialServiceState).1 rfl⟩

/-- C9: `is_running`.  With no tracked pid the probe answers `false`;
otherwise it answers exactly the OS existence check for that pid (the
`/proc/<pid>` lookup or the `kill(pid, 0)` probe, both pure existence
queries modelled by the `procAlive` oracle), and being a pure function of
the oracle it affects no state. -/
theorem isRunning_semantics (os : OS) (st : ServiceState) :
    (st.process = none → isRunning os st = false) ∧
    (∀ pid, st.process = some pid → isRunning os st = os.procAlive pid) := by
  refine ⟨fun h => ?_, fun pid h => ?_⟩ <;> simp [isRunning, h]

theorem lookupState_eq_none_of_not_mem (m : StateMap) (id : String)
    (h : id ∉ m.map Prod.fst) : lookupState m id = none := by
  induction m with
  | nil => rfl
  | cons kv rest ih =>
      obtain ⟨k, v⟩ := kv
      rw [List.map_cons, List.mem_cons, not_or] at h
      simp [lookupState, Ne.symm h.1, ih h.2]

theorem lookupState_removeState_self (m : StateMap) (id : String)
    (h : (m.map Prod.fst).Nodup) : lookupState (removeState m id) id = none := by
  induction m with
  | nil => rfl
  | cons kv rest ih =>
      obtain ⟨k, v⟩ := kv
      rw [List.map_cons, List.nodup_cons] at h
      by_cases hk : k = id
      · subst hk
        simp only [removeState, if_pos rfl]
        exact lookupState_eq_none_of_not_mem rest k h.1
      · simp [removeState, lookupState, hk, ih h.2]

theorem ensureMonitorFrpc_spec (id : String) (w : World) :
    (ensureMonitorFrpc id w).settings = w.settings ∧
    (ensureMonitorFrpc id w).frpsState = w.frpsState ∧
    ∃ st, lookupState (ensureMonitorFrpc id w).frpcStates id = some st ∧
      st.monitor = true ∧
      st.desired_running = (ensureFrpcState w.frpcStates id).1.desired_running := by
  unfold ensureMonitorFrpc
  by_cases hm : (ensureFrpcState w.frpcStates id).1.monitor
  · refine ⟨by simp [hm], by simp [hm], (ensureFrpcState w.frpcStates id).1,
      ?_, hm, rfl⟩
    simp only [hm, if_true]
    exact lookupState_ensure_self w.frpcStates id
  · refine ⟨by simp [hm], by simp [hm],
      { (ensureFrpcState w.frpcStates id).1 with monitor := true }, ?_, rfl, rfl⟩
    simp only [hm, if_false, Bool.false_eq_true]
    exact lookupState_setState_self _ _ _

theorem launch_mem_startProcess (os : OS) (t : Target) (b c : String)
    (st : ServiceState) : Event.launch t b c ∈ (startProcess os t b c st).2 := by
  apply List.mem_of_mem_filter (p := fun e => e.isCtl)
  rw [(startProcess_events os t b c st).1]
  exact List.mem_singleton_self _

theorem frpcStartLocked_spec (os : OS) (id : String) (w : World)
    (inst : Instance) (h : findInstance w.settings id = some inst) :
    (∃ st, lookupState (frpcStartLocked os id w).1.frpcStates id = some st ∧
      st.desired_running = true ∧ st.monitor = true) ∧
    Event.launch (.frpc id) w.settings.frpc_path inst.config ∈
      (frpcStartLocked os id w).2 ∧
    (frpcStartLocked os id w).1.liveFrpcMonitors =
      (ensureMonitorFrpc id (setDesiredTrue id w)).liveFrpcMonitors := by
  obtain ⟨hs, _, st2, hlook, hmon, hdes⟩ :=
    ensureMonitorFrpc_spec id (setDesiredTrue id w)
  have hsett : (setDesiredTrue id w).settings = w.settings := rfl
  rw [show (setDesiredTrue id w).frpcStates =
        setState (ensureFrpcState w.frpcStates id).2 id
          { (ensureFrpcState w.frpcStates id).1 with
            desired_running := true } from rfl,
    ensureFrpcState_of_some _ _ _ (lookupState_setState_self _ _ _)] at hdes
  have hfind2 : findInstance
      (ensureMonitorFrpc id (setDesiredTrue id w)).settings id = some inst := by
    rw [hs, hsett]; exact h
  refine ⟨⟨(startProcess os (.frpc id) w.settings.frpc_path inst.config st2).1,
      ?_, ?_, ?_⟩, ?_, rfl⟩
  · show lookupState
        (startFrpc os (ensureMonitorFrpc id (setDesiredTrue id w)).settings id
          (ensureMonitorFrpc id (setDesiredTrue id w)).frpcStates).1 id = _
    rw [startFrpc_of_found os _ id _ inst hfind2,
      ensureFrpcState_of_some _ _ _ hlook, hs, hsett]
    exact lookupState_setState_self _ _ _
  · rw [startProcess_preserves_desired, hdes]
  · rw [startProcess_preserves_monitor, hmon]
  · show Event.launch (.frpc id) w.settings.frpc_path inst.config ∈
        (startFrpc os (ensureMonitorFrpc id (setDesiredTrue id w)).settings id
          (ensureMonitorFrpc id (setDesiredTrue id w)).frpcStates).2
    rw [startFrpc_of_found os _ id _ inst hfind2, hs, hsett]
    exact launch_mem_startProcess os (.frpc id) w.settings.frpc_path
      inst.config _

/-- C2 counterexample: `frpc_remove` destroys the in-memory `ServiceState`
record.  In a world where instance `"a"` is registered, has a record
tracking pid 5, and has a live monitor thread, removing `"a"` pops the
record out of `FRPC_STATES`: afterwards the registry holds no record for
`"a"`, contradicting the claim that the record always remains resident. -/
theorem frpcRemove_pops_record_counterexample :
    lookupState demoWorld.frpcStates "a" = some staleState ∧
    lookupState (frpcRemove "a" demoWorld).1.frpcStates "a" = none := by
  decide

/-- C2 (amended): `frpc_remove(id)` discards the `InstanceDescriptor` from
the settings registry and, when a `ServiceState` record for `id` exists, it
pops that record out of the in-memory registry `FRPC_STATES` — the record
does not remain in the registry; it survives only as the orphaned object
referenced by its (never-cancelled) monitor thread.  On the popped record
the handler sets `desiredRunning := false` and runs the stop operation
(clearing the handle, delivering SIGTERM to a tracked pid); the live
monitor threads themselves are untouched.  When no record exists, only the
settings change. -/
theorem frpcRemove_semantics (id : String) (w : World)
    (hnd : (w.frpcStates.map Prod.fst).Nodup) :
    (frpcRemove id w).1.settings.frpc_instances =
      w.settings.frpc_instances.filter (fun i => i.id ≠ id) ∧
    (frpcRemove id w).1.frpsState = w.frpsState ∧
    (frpcRemove id w).1.liveFrpcMonitors = w.liveFrpcMonitors ∧
    (lookupState w.frpcStates id = none →
      (frpcRemove id w).1.frpcStates = w.frpcStates ∧
      (frpcRemove id w).2.1 = none ∧ (frpcRemove id w).2.2 = []) ∧
    (∀ st, lookupState w.frpcStates id = some st →
      (frpcRemove id w).1.frpcStates = removeState w.frpcStates id ∧
      lookupState (frpcRemove id w).1.frpcStates id = none ∧
      (frpcRemove id w).2.1 =
        some { st with desired_running := false, process := none } ∧
      (frpcRemove id w).2.2 =
        (stopProcess (.frpc id) { st with desired_running := false }).2) := by
  refine ⟨?_, ?_, ?_, fun h => ?_, fun st h => ?_⟩
  · unfold frpcRemove
    cases lookupState w.frpcStates id <;> rfl
  · unfold frpcRemove
    cases lookupState w.frpcStates id <;> rfl
  · unfold frpcRemove
    cases lookupState w.frpcStates id <;> rfl
  · simp [frpcRemove, h]
  · refine ⟨by simp [frpcRemove, h], ?_, ?_, by simp [frpcRemove, h]⟩
    · simp only [frpcRemove, h]
      exact lookupState_removeState_self w.frpcStates id hnd
    · simp only [frpcRemove, h]
      unfold stopProcess
      cases hp : st.process <;> simp

/-- Witness for C2: removing `"a"` from the demo world leaves the filtered
settings, no record for `"a"`, the monitor-thread list intact, and an
orphaned record that is stopped (desired false, handle cleared) after a
SIGTERM to pid 5. -/
theorem frpcRemove_semantics_witness :
    (frpcRemove "a" demoWorld).1.settings.frpc_instances = [] ∧
    (frpcRemove "a" demoWorld).1.liveFrpcMonitors = ["a"] ∧
    lookupState (frpcRemove "a" demoWorld).1.frpcStates "a" = none ∧
    (frpcRemove "a" demoWorld).2.1 =
      some { process := none, desired_running := false, last_exit_code := none,
             last_error := "old", monitor := true } ∧
    (frpcRemove "a" demoWorld).2.2 =
      [.stopOp (.frpc "a"), .sigterm (.frpc "a") 5] := by
  have h := frpcRemove_semantics "a" demoWorld (by decide)
  refine ⟨by decide, h.2.2.1, (h.2.2.2.2 staleState (by decide)).2.1, ?_, ?_⟩
  · rw [(h.2.2.2.2 staleState (by decide)).2.2.1]
    decide
  · rw [(h.2.2.2.2 staleState (by decide)).2.2.2]
    decide

/-- C5: `frpc_start` / `frps_start`.  For a client id not registered in
`frpc_instances`, `frpc_start` fails synchronously (`abort(404)`, modelled
as the `UnknownInstance` error) before touching any supervisor state — the
error constructor carries no world, so nothing is mutated.  For a
registered client id the operation sets `desired_running := true`, leaves
the id with a live monitor (`monitor = true` on its record), and the trace
contains the immediate launcher invocation with the frpc binary path and
the instance's config path — the spawn is attempted inline, not left to the
next tick.  `frps_start` does the same unconditionally for the server
instance. -/
theorem start_semantics (os : OS) (id : String) (w : World) :
    (findInstance w.settings id = none →
      frpcStart os id w = .error "UnknownInstance") ∧
    (∀ inst, findInstance w.settings id = some inst →
      ∃ w' tr, frpcStart os id w = .ok (w', tr) ∧
        (∃ st, lookupState w'.frpcStates id = some st ∧
          st.desired_running = true ∧ st.monitor = true) ∧
        Event.launch (.frpc id) w.settings.frpc_path inst.config ∈ tr) ∧
    ((frpsStart os w).1.frpsState.desired_running = true ∧
      (frpsStart os w).1.frpsState.monitor = true ∧
      Event.launch .frps w.settings.frps_path w.settings.frps_config ∈
        (frpsStart os w).2) := by
  refine ⟨fun h => by simp [frpcStart, h], fun inst h => ?_, ?_, ?_, ?_⟩
  · exact ⟨(frpcStartLocked os id w).1, (frpcStartLocked os id w).2,
      by simp [frpcStart, h], (frpcStartLocked_spec os id w inst h).1,
      (frpcStartLocked_spec os id w inst h).2.1⟩
  · unfold frpsStart ensureMonitorFrps
    by_cases hm : w.frpsState.monitor <;>
      simp [hm, startFrps, startProcess_preserves_desired]
  · unfold frpsStart ensureMonitorFrps
    by_cases hm : w.frpsState.monitor <;>
      simp [hm, startFrps, startProcess_preserves_monitor]
  · unfold frpsStart ensureMonitorFrps
    by_cases hm : w.frpsState.monitor <;>
      simp only [hm, if_true, if_false, Bool.false_eq_true, startFrps] <;>
      exact launch_mem_startProcess os .frps w.settings.frps_path
        w.settings.frps_config _

theorem ensureMonitorFrpc_monitors_of_true (id : String) (w : World)
    (h : (ensureFrpcState w.frpcStates id).1.monitor = true) :
    (ensureMonitorFrpc id w).liveFrpcMonitors = w.liveFrpcMonitors := by
  simp [ensureMonitorFrpc, h]

theorem ensureMonitorFrpc_monitors_of_false (id : String) (w : World)
    (h : (ensureFrpcState w.frpcStates id).1.monitor = false) :
    (ensureMonitorFrpc id w).liveFrpcMonitors = w.liveFrpcMonitors ++ [id] := by
  simp [ensureMonitorFrpc, h]

/-- C6 counterexample: at-most-one-live-loop-per-id fails under
remove/re-add churn.  Starting from a fresh world with instance `"a"`
registered, the façade sequence `restart("a")`, `removeInstance("a")`,
`restart("a")` ends with two live monitor threads for `"a"`: the removal
pops the record but cannot cancel its loop, and the second restart creates
a fresh record (whose `monitor_thread` is empty) and dutifully starts a
second loop for the same id. -/
theorem duplicate_monitor_counterexample :
    cleanWorld.liveFrpcMonitors.count "a" = 0 ∧
    ((frpcRestart demoOS "a"
        (frpcRemove "a"
          (frpcRestart demoOS "a" cleanWorld).1).1).1).liveFrpcMonitors =
      ["a", "a"] ∧
    (["a", "a"].count "a" = 2) := by
  decide

/-- C6 (amended): the ensure-monitor step is idempotent for a record that
stays resident: from any world with no live monitor thread for `id` and no
record claiming one, calling `start(id)` twice in rapid succession yields
exactly one live Reconciliation Loop for `id` (already after the first
call, and the second call adds none).  The at-most-one-loop-per-id
invariant holds only in this per-record sense: as the counterexample shows,
removing the instance and starting it again orphans the old loop and
creates a second one for the same id. -/
theorem ensureMonitor_idempotent (os os' : OS) (id : String) (w : World)
    (h0 : w.liveFrpcMonitors.count id = 0)
    (hrec : ∀ st, lookupState w.frpcStates id = some st → st.monitor = false) :
    ∀ w1 tr1, frpcStart os id w = .ok (w1, tr1) →
      w1.liveFrpcMonitors.count id = 1 ∧
      ∀ w2 tr2, frpcStart os' id w1 = .ok (w2, tr2) →
        w2.liveFrpcMonitors.count id = 1 := by
  intro w1 tr1 hok
  cases hf : findInstance w.settings id with
  | none => rw [frpcStart, hf] at hok; exact absurd hok (by simp)
  | some inst =>
      rw [frpcStart, hf] at hok
      have hw1 : w1 = (frpcStartLocked os id w).1 := by
        have h2 := hok
        simp only [Except.ok.injEq] at h2
        rw [h2]
      have hmonfalse : (ensureFrpcState (setDesiredTrue id w).frpcStates id).1.monitor = false := by
        rw [show (setDesiredTrue id w).frpcStates =
              setState (ensureFrpcState w.frpcStates id).2 id
                { (ensureFrpcState w.frpcStates id).1 with
                  desired_running := true } from rfl,
          ensureFrpcState_of_some _ _ _ (lookupState_setState_self _ _ _)]
        show (ensureFrpcState w.frpcStates id).1.monitor = false
        unfold ensureFrpcState
        cases hl : lookupState w.frpcStates id with
        | some st => exact hrec st hl
        | none => rfl
      have hcount1 : w1.liveFrpcMonitors.count id = 1 := by
        rw [hw1, (frpcStartLocked_spec os id w inst hf).2.2,
          ensureMonitorFrpc_monitors_of_false id (setDesiredTrue id w) hmonfalse]
        show ((setDesiredTrue id w).liveFrpcMonitors ++ [id]).count id = 1
        rw [List.count_append]
        show w.liveFrpcMonitors.count id + [id].count id = 1
        rw [h0]
        simp
      refine ⟨hcount1, fun w2 tr2 hok2 => ?_⟩
      obtain ⟨st1, hlook1, _, hmon1⟩ := (frpcStartLocked_spec os id w inst hf).1
      rw [← hw1] at hlook1
      cases hf1 : findInstance w1.settings id with
      | none => rw [frpcStart, hf1] at hok2; exact absurd hok2 (by simp)
      | some inst1 =>
          rw [frpcStart, hf1] at hok2
          have hw2 : w2 = (frpcStartLocked os' id w1).1 := by
            have h3 := hok2
            simp only [Except.ok.injEq] at h3
            rw [h3]
          have hmontrue :
              (ensureFrpcState (setDesiredTrue id w1).frpcStates id).1.monitor = true := by
            rw [show (setDesiredTrue id w1).frpcStates =
                  setState (ensureFrpcState w1.frpcStates id).2 id
                    { (ensureFrpcState w1.frpcStates id).1 with
                      desired_running := true } from rfl,
              ensureFrpcState_of_some _ _ _ (lookupState_setState_self _ _ _)]
            show (ensureFrpcState w1.frpcStates id).1.monitor = true
            rw [ensureFrpcState_of_some _ _ _ hlook1]
            exact hmon1
          rw [hw2, (frpcStartLocked_spec os' id w1 inst1 hf1).2.2,
            ensureMonitorFrpc_monitors_of_true id (setDesiredTrue id w1) hmontrue]
          exact hcount1

/-- Witness for C6: from the fresh demo world, two successive
`frpc_start("a")` calls leave exactly one live monitor thread for `"a"`. -/
theorem ensureMonitor_idempotent_witness :
    ∃ w1 tr1, frpcStart demoOS "a" cleanWorld = .ok (w1, tr1) ∧
      w1.liveFrpcMonitors.count "a" = 1 ∧
      ∀ w2 tr2, frpcStart demoOS "a" w1 = .ok (w2, tr2) →
        w2.liveFrpcMonitors.count "a" = 1 := by
  refine ⟨(frpcStartLocked demoOS "a" cleanWorld).1,
    (frpcStartLocked demoOS "a" cleanWorld).2, rfl, ?_⟩
  have h := ensureMonitor_idempotent demoOS demoOS "a" cleanWorld (by decide)
    (fun st hst => by simp [cleanWorld, lookupState] at hst)
    (frpcStartLocked demoOS "a" cleanWorld).1
    (frpcStartLocked demoOS "a" cleanWorld).2 rfl
  exact h

/-- Witness for C5: in the demo world, starting the unregistered id `"b"`
fails with `UnknownInstance`; starting the registered id `"a"` succeeds,
leaves `"a"` desired-running with a live monitor, and immediately invokes
the launcher with the frpc binary and `"a"`'s config. -/
theorem start_semantics_witness :
    frpcStart demoOS "b" demoWorld = .error "UnknownInstance" ∧
    (∃ w' tr, frpcStart demoOS "a" demoWorld = .ok (w', tr) ∧
      (∃ st, lookupState w'.frpcStates "a" = some st ∧
        st.desired_running = true ∧ st.monitor = true) ∧
      Event.launch (.frpc "a") "frpc-bin" "c.toml" ∈ tr) :=
  ⟨(start_semantics demoOS "b" demoWorld).1 (by decide),
   (start_semantics demoOS "a" demoWorld).2.1 { id := "a", config := "c.toml" }
     (by decide)⟩

/-- C3 counterexample: the claim's spawn branch (stated for every state)
does not hold for an frpc record whose id is not registered in settings.
Concretely, with one record for `"a"` having `desired_running = true`, no
tracked process (so the liveness probe answers `false`), a non-empty
`last_error = "boom"`, and settings registering no instances (the shape —
desired-running record for an unregistered id — is reachable via
`frpc_restart` of a removed id), one `_monitor_frpc` tick returns the
registry unchanged and an empty trace — the Process Launcher is never
invoked and `last_error` is not overwritten by any launch result,
contradicting the claimed transition. -/
theorem frpcTick_unregistered_counterexample :
    boomState.desired_running = true ∧
    isRunning demoOS boomState = false ∧
    boomState.last_error = "boom" ∧
    frpcTick demoOS emptySettings "a" [("a", boomState)] =
      ([("a", boomState)], []) := by
  decide

/-- C3 (amended): one reconciliation tick.  For the frps loop the claim
holds exactly as stated: with `desired_running = false` a tracked process
is stopped and the handle cleared, otherwise the tick is a no-op; with
`desired_running = true` and the process not alive, the stale handle is
cleared and the Process Launcher is invoked with the binary and config path
read from settings at that moment, the state being updated from its
result; alive means unchanged.  For the frpc loop the same holds with one
amendment: the spawn branch invokes the launcher (with the instance's
config re-read from settings) only when the id is registered in settings;
for an unregistered id the tick merely clears the stale handle, emitting no
launch and leaving `last_error` untouched. -/
theorem monitorTick_semantics (os : OS) (s : Settings) (id : String)
    (m : StateMap) (st frpsSt : ServiceState) :
    (frpsSt.desired_running = false → frpsSt.process = none →
      frpsTick os s frpsSt = (frpsSt, [])) ∧
    (frpsSt.desired_running = false → ∀ pid, frpsSt.process = some pid →
      frpsTick os s frpsSt =
        ({ frpsSt with process := none }, [.stopOp .frps, .sigterm .frps pid])) ∧
    (frpsSt.desired_running = true → isRunning os frpsSt = false →
      frpsTick os s frpsSt =
        startProcess os .frps s.frps_path s.frps_config
          { frpsSt with process := none }) ∧
    (frpsSt.desired_running = true → isRunning os frpsSt = true →
      frpsTick os s frpsSt = (frpsSt, [])) ∧
    (lookupState m id = some st →
      (st.desired_running = false → st.process = none →
        frpcTick os s id m = (m, [])) ∧
      (st.desired_running = false → ∀ pid, st.process = some pid →
        frpcTick os s id m =
          (setState m id { st with process := none },
           [.stopOp (.frpc id), .sigterm (.frpc id) pid])) ∧
      (st.desired_running = true → isRunning os st = false →
        (∀ inst, findInstance s id = some inst →
          frpcTick os s id m =
            (setState m id
              (startProcess os (.frpc id) s.frpc_path inst.config
                { st with process := none }).1,
             (startProcess os (.frpc id) s.frpc_path inst.config
                { st with process := none }).2)) ∧
        (findInstance s id = none →
          frpcTick os s id m = (setState m id { st with process := none }, []))) ∧
      (st.desired_running = true → isRunning os st = true →
        frpcTick os s id m = (m, []))) := by
  refine ⟨fun hd hp => ?_, fun hd pid hp => ?_, fun hd hr => ?_, fun hd hr => ?_,
    fun hm => ⟨fun hd hp => ?_, fun hd pid hp => ?_,
      fun hd hr => ⟨fun inst hf => ?_, fun hf => ?_⟩, fun hd hr => ?_⟩⟩
  · simp [frpsTick, hd, hp]
  · simp [frpsTick, stopProcess, hd, hp]
  · simp [frpsTick, startFrps, hd, hr]
  · simp [frpsTick, hd, hr]
  · simp [frpcTick, ensureFrpcState, hm, hd, hp]
  · simp [frpcTick, ensureFrpcState, stopProcess, hm, hd, hp]
  · simp only [frpcTick, ensureFrpcState, hm, hd, hr, Bool.not_true,
      Bool.false_eq_true, if_false, Bool.not_false, if_true, startFrpc, hf,
      lookupState_setState_self, setState_setState_self]
  · simp [frpcTick, ensureFrpcState, hm, hd, hr, startFrpc, hf]
  · simp [frpcTick, ensureFrpcState, hm, hd, hr]

/-- Witness for C3: a concrete registered instance `"a"` with a desired
record whose process has died — one tick re-reads settings and spawns,
storing the new pid 7 and clearing the error. -/
theorem monitorTick_semantics_witness :
    frpcTick demoOS demoSettings "a" [("a", staleState)] =
      ([("a", { process := some 7, desired_running := true,
                last_exit_code := none, last_error := "", monitor := true })],
       [.launch (.frpc "a") "frpc-bin" "c.toml",
        .popen (.frpc "a") ["frpc-bin", "-c", "c.toml"]]) := by
  have h := (((monitorTick_semantics demoOS demoSettings "a" [("a", staleState)]
    staleState initialServiceState).2.2.2.2 (by decide)).2.2.1 (by decide)
    (by decide)).1 { id := "a", config := "c.toml" } (by decide)
  rw [h]
  decide

/-- Witness for C9: no pid tracked gives `false`; a tracked live pid gives
`true`. -/
theorem isRunning_semantics_witness :
    isRunning ⟨fun _ => true, fun _ => .ok 3⟩ initialServiceState = false ∧
    isRunning ⟨fun pid => decide (pid = 5), fun _ => .ok 3⟩
      { initialServiceState with process := some 5 } = true :=
  ⟨(isRunning_semantics ⟨fun _ => true, fun _ => .ok 3⟩ initialServiceState).1 rfl,
   (isRunning_semantics ⟨fun pid => decide (pid = 5), fun _ => .ok 3⟩
      { initialServiceState with process := some 5 }).2 5 rfl⟩

theorem saveFileFrpsPart_targets (os : OS) (resolve : String → String)
    (s : Settings) (filePath : String) (frpsSt : ServiceState) :
    ∀ e ∈ (saveFileFrpsPart os resolve s filePath frpsSt).2,
      e.target = .frps := by
  unfold saveFileFrpsPart
  split
  · intro e he
    rcases List.mem_append.1 he with h1 | h2
    · exact (stopProcess_events .frps frpsSt).2 e h1
    · exact (startProcess_events os .frps s.frps_path s.frps_config _).2 e h2
  · intro e he
    exact absurd he (List.not_mem_nil e)

theorem saveFileSupervise_trace (os : OS) (resolve : String → String)
    (s : Settings) (filePath : String) (frpsSt : ServiceState) (m : StateMap) :
    (saveFileSupervise os resolve s filePath frpsSt m).2.2 =
      (saveFileFrpsPart os resolve s filePath frpsSt).2 ++
        (saveFileFrpcLoop os resolve s filePath s.frpc_instances m).2 := rfl

theorem loop_targets_ne_frps (os : OS) (resolve : String → String)
    (s : Settings) (filePath : String) (insts : List Instance) (m : StateMap) :
    ∀ e ∈ (saveFileFrpcLoop os resolve s filePath insts m).2,
      e.target ≠ Target.frps := by
  intro e he
  obtain ⟨inst, _, ht⟩ := loop_events_targets os resolve s filePath insts m e he
  rw [ht]
  intro hcontra
  exact absurd hcontra (by simp)

/-- C7: `notifyConfigChanged` (saving a config file).  In `save_file`'s
locked block: if the frps binding is non-empty and resolves to the saved
file and frps is desired running, the whole trace contains exactly one frps
stop operation followed by exactly one frps launcher invocation with the
(just-saved) bound config; if frps is not desired running, its state is
untouched and no frps event is emitted.  For every registered frpc
instance whose non-empty bound config resolves to the saved file (instance
ids unique, as `_normalize_instances` guarantees): if its record is
desired running, the trace contains exactly one stop operation followed by
exactly one launcher invocation for that id, with the binary path and the
instance's (saved) config re-read from settings; if not desired running,
no event for that id is emitted and its record is left unchanged (a missing
record counts as the freshly inserted default).  `frps_save` behaves the
same for the server instance, after first re-binding `services.frps.config`
to the saved file, so its inline restart uses the new path. -/
theorem notifyConfigChanged_semantics (os : OS) (resolve : String → String)
    (s : Settings) (filePath : String) (frpsSt : ServiceState) (m : StateMap)
    (hnd : (s.frpc_instances.map (fun i => i.id)).Nodup) :
    (s.frps_config ≠ "" → resolve s.frps_config = filePath →
      (frpsSt.desired_running = true →
        stopLaunchFor .frps
          (saveFileSupervise os resolve s filePath frpsSt m).2.2 =
          [.stopOp .frps, .launch .frps s.frps_path s.frps_config]) ∧
      (frpsSt.desired_running = false →
        (saveFileSupervise os resolve s filePath frpsSt m).1 = frpsSt ∧
        eventsFor .frps
          (saveFileSupervise os resolve s filePath frpsSt m).2.2 = [])) ∧
    (∀ inst ∈ s.frpc_instances, inst.config ≠ "" →
      resolve inst.config = filePath →
      (((lookupState m inst.id).getD initialServiceState).desired_running = true →
        stopLaunchFor (.frpc inst.id)
          (saveFileSupervise os resolve s filePath frpsSt m).2.2 =
          [.stopOp (.frpc inst.id),
           .launch (.frpc inst.id) s.frpc_path inst.config]) ∧
      (((lookupState m inst.id).getD initialServiceState).desired_running = false →
        eventsFor (.frpc inst.id)
          (saveFileSupervise os resolve s filePath frpsSt m).2.2 = [] ∧
        lookupState (saveFileSupervise os resolve s filePath frpsSt m).2.1
          inst.id = some ((lookupState m inst.id).getD initialServiceState))) ∧
    ((frpsSave os filePath s frpsSt).1.frps_config = filePath ∧
      (frpsSt.desired_running = true →
        stopLaunchFor .frps (frpsSave os filePath s frpsSt).2.2 =
          [.stopOp .frps, .launch .frps s.frps_path filePath]) ∧
      (frpsSt.desired_running = false →
        (frpsSave os filePath s frpsSt).2.1 = frpsSt ∧
        (frpsSave os filePath s frpsSt).2.2 = [])) := by
  refine ⟨fun hne hres => ⟨fun hdt => ?_, fun hdf => ⟨?_, ?_⟩⟩,
    fun inst hmem hc hr => ⟨fun hdt => ?_, fun hdf => ⟨?_, ?_⟩⟩, ?_, fun hdt => ?_,
    fun hdf => ?_⟩
  · rw [saveFileSupervise_trace, stopLaunchFor_append,
      stopLaunchFor_nil_of_ne_target _ _
        (loop_targets_ne_frps os resolve s filePath s.frpc_instances m),
      List.append_nil]
    unfold saveFileFrpsPart startFrps
    rw [if_pos ⟨hne, hres, hdt⟩, stopLaunchFor_append,
      stopLaunchFor_of_all_target _ _ (stopProcess_events .frps frpsSt).2,
      (stopProcess_events .frps frpsSt).1,
      stopLaunchFor_of_all_target _ _
        (startProcess_events os .frps s.frps_path s.frps_config _).2,
      (startProcess_events os .frps s.frps_path s.frps_config _).1]
    rfl
  · show (saveFileFrpsPart os resolve s filePath frpsSt).1 = frpsSt
    unfold saveFileFrpsPart
    rw [if_neg (by rw [hdf]; simp)]
  · rw [saveFileSupervise_trace, eventsFor_append,
      eventsFor_nil_of_ne_target _ _
        (loop_targets_ne_frps os resolve s filePath s.frpc_instances m),
      List.append_nil]
    show eventsFor .frps (saveFileFrpsPart os resolve s filePath frpsSt).2 = []
    unfold saveFileFrpsPart
    rw [if_neg (by rw [hdf]; simp)]
    rfl
  · rw [saveFileSupervise_trace, stopLaunchFor_append,
      stopLaunchFor_nil_of_ne_target _ _ (fun e he hcontra => by
        have := saveFileFrpsPart_targets os resolve s filePath frpsSt e he
        rw [this] at hcontra
        exact absurd hcontra (by simp)),
      List.nil_append]
    exact ((loop_spec os resolve s filePath s.frpc_instances m hnd inst hmem
      hc hr (findInstance_of_mem_nodup s inst hmem hnd)).1) hdt
  · rw [saveFileSupervise_trace, eventsFor_append,
      eventsFor_nil_of_ne_target _ _ (fun e he hcontra => by
        have := saveFileFrpsPart_targets os resolve s filePath frpsSt e he
        rw [this] at hcontra
        exact absurd hcontra (by simp)),
      List.nil_append]
    exact ((loop_spec os resolve s filePath s.frpc_instances m hnd inst hmem
      hc hr (findInstance_of_mem_nodup s inst hmem hnd)).2 hdf).1
  · exact ((loop_spec os resolve s filePath s.frpc_instances m hnd inst hmem
      hc hr (findInstance_of_mem_nodup s inst hmem hnd)).2 hdf).2
  · unfold frpsSave
    split <;> rfl
  · unfold frpsSave startFrps
    rw [if_pos hdt, stopLaunchFor_append,
      stopLaunchFor_of_all_target _ _ (stopProcess_events .frps frpsSt).2,
      (stopProcess_events .frps frpsSt).1]
    have h2 := startProcess_events os .frps
      ({ s with frps_config := filePath }).frps_path
      ({ s with frps_config := filePath }).frps_config
      (stopProcess .frps frpsSt).1
    rw [stopLaunchFor_of_all_target _ _ h2.2, h2.1]
    rfl
  · unfold frpsSave
    rw [if_neg (by rw [hdf]; simp)]
    exact ⟨rfl, rfl⟩

theorem dropWhile_head?_not (p : Char → Bool) :
    ∀ (l : List Char) (c : Char), (l.dropWhile p).head? = some c →
      p c = false := by
  intro l
  induction l with
  | nil => intro c h; exact absurd h (by simp)
  | cons x xs ih =>
      intro c h
      rw [List.dropWhile_cons] at h
      by_cases hp : p x
      · rw [if_pos hp] at h
        exact ih c h
      · rw [if_neg hp] at h
        rw [List.head?_cons, Option.some.injEq] at h
        rw [← h]
        exact Bool.eq_false_iff.2 hp

theorem dropWhile_getLast?_of_ne_nil (p : Char → Bool) :
    ∀ (l : List Char), l.dropWhile p ≠ [] →
      (l.dropWhile p).getLast? = l.getLast? := by
  intro l
  induction l with
  | nil => intro h; exact absurd rfl h
  | cons x xs ih =>
      intro h
      rw [List.dropWhile_cons] at h ⊢
      by_cases hp : p x
      · rw [if_pos hp] at h ⊢
        rw [ih h]
        cases xs with
        | nil => exact absurd (by simp) h
        | cons y ys => rw [List.getLast?_cons_cons]
      · rw [if_neg hp]

theorem stripList_props (p : Char → Bool) (l : List Char) :
    (∀ ch ∈ ((l.dropWhile p).reverse.dropWhile p).reverse, ch ∈ l) ∧
    (∀ ch, (((l.dropWhile p).reverse.dropWhile p).reverse).head? = some ch →
      p ch = false) ∧
    (∀ ch, (((l.dropWhile p).reverse.dropWhile p).reverse).getLast? = some ch →
      p ch = false) := by
  refine ⟨?_, ?_, ?_⟩
  · intro ch hch
    rw [List.mem_reverse] at hch
    have h1 := (List.dropWhile_sublist p).mem hch
    rw [List.mem_reverse] at h1
    exact (List.dropWhile_sublist p).mem h1
  · intro ch hch
    rw [List.head?_reverse] at hch
    have hne : (l.dropWhile p).reverse.dropWhile p ≠ [] := by
      intro hnil
      rw [hnil] at hch
      exact absurd hch (by simp)
    rw [dropWhile_getLast?_of_ne_nil p _ hne, List.getLast?_reverse] at hch
    exact dropWhile_head?_not p l ch hch
  · intro ch hch
    rw [List.getLast?_reverse] at hch
    exact dropWhile_head?_not p _ ch hch

theorem cleaned_mem_allowed (raw : String) :
    ∀ ch ∈ raw.toList.map
        (fun c => if allowedChars.contains c then c else '-'),
      allowedChars.contains ch = true := by
  intro ch hch
  rw [List.mem_map] at hch
  obtain ⟨c, _, hc⟩ := hch
  by_cases h : allowedChars.contains c
  · rw [if_pos h] at hc
    rw [← hc]
    exact h
  · rw [if_neg h] at hc
    rw [← hc]
    decide

theorem sanitizeInstanceId_props (raw : String) :
    (∀ ch ∈ (sanitizeInstanceId raw).toList, allowedChars.contains ch = true) ∧
    (∀ ch, (sanitizeInstanceId raw).toList.head? = some ch →
      stripSet.contains ch = false) ∧
    (∀ ch, (sanitizeInstanceId raw).toList.getLast? = some ch →
      stripSet.contains ch = false) ∧
    (sanitizeInstanceId raw ≠ "" →
      validateInstanceId (sanitizeInstanceId raw) = true) := by
  have htl : (sanitizeInstanceId raw).toList =
      (((raw.toList.map
          (fun c => if allowedChars.contains c then c else '-')).dropWhile
            (fun ch => stripSet.contains ch)).reverse.dropWhile
              (fun ch => stripSet.contains ch)).reverse := rfl
  have hstrip := stripList_props (fun ch => stripSet.contains ch)
    (raw.toList.map (fun c => if allowedChars.contains c then c else '-'))
  have hmem : ∀ ch ∈ (sanitizeInstanceId raw).toList,
      allowedChars.contains ch = true := by
    intro ch hch
    rw [htl] at hch
    exact cleaned_mem_allowed raw ch (hstrip.1 ch hch)
  refine ⟨hmem, ?_, ?_, ?_⟩
  · intro ch hch
    rw [htl] at hch
    exact hstrip.2.1 ch hch
  · intro ch hch
    rw [htl] at hch
    exact hstrip.2.2 ch hch
  · intro hne
    unfold validateInstanceId
    rw [if_neg hne]
    rw [List.all_eq_true]
    exact hmem

/-- C10: `_sanitize_instance_id` and `_validate_instance_id`.  For every
input string, the sanitised result contains only characters from the
allowed set `[A-Za-z0-9-_]`, its first and last characters (when present)
are never `'-'` or `'_'` (Python's `strip("-_")`), and whenever the result
is non-empty it passes `_validate_instance_id`.  Consequently the instance
id `frpc_add` derives from a config file name (base name, `.toml` suffix
dropped, then sanitised) is either empty — and the request rejected — or a
valid instance id. -/
theorem sanitize_instance_id_correct (raw fileName : String) :
    (∀ ch ∈ (sanitizeInstanceId raw).toList, allowedChars.contains ch = true) ∧
    (∀ ch, (sanitizeInstanceId raw).toList.head? = some ch →
      stripSet.contains ch = false) ∧
    (∀ ch, (sanitizeInstanceId raw).toList.getLast? = some ch →
      stripSet.contains ch = false) ∧
    (sanitizeInstanceId raw ≠ "" →
      validateInstanceId (sanitizeInstanceId raw) = true) ∧
    (deriveInstanceId fileName ≠ "" →
      validateInstanceId (deriveInstanceId fileName) = true) := by
  have h := sanitizeInstanceId_props raw
  refine ⟨h.1, h.2.1, h.2.2.1, h.2.2.2, fun hne => ?_⟩
  unfold deriveInstanceId at hne ⊢
  exact (sanitizeInstanceId_props _).2.2.2 hne

/-- Witness for C10: sanitising `"-my config!-"` yields the non-empty,
valid id `"my-config"`, and the id derived from the file name
`"my config!.toml"` is non-empty and valid. -/
theorem sanitize_instance_id_correct_witness :
    validateInstanceId (sanitizeInstanceId "-my config!-") = true ∧
    deriveInstanceId "my config!.toml" ≠ "" ∧
    validateInstanceId (deriveInstanceId "my config!.toml") = true :=
  ⟨(sanitize_instance_id_correct "-my config!-" "x").2.2.2.1 (by decide),
    by decide,
    (sanitize_instance_id_correct "x" "my config!.toml").2.2.2.2 (by decide)⟩

/-- Witness for C7: saving `c.toml` (to which instance `"a"`'s binding
resolves) while `"a"` is desired running performs exactly one stop followed
by one launcher invocation with the saved config. -/
theorem notifyConfigChanged_semantics_witness :
    stopLaunchFor (.frpc "a")
      (saveFileSupervise demoOS (fun p => p) demoSettings "c.toml"
        initialServiceState [("a", staleState)]).2.2 =
      [.stopOp (.frpc "a"), .launch (.frpc "a") "frpc-bin" "c.toml"] := by
  have h := ((notifyConfigChanged_semantics demoOS (fun p => p) demoSettings
    "c.toml" initialServiceState [("a", staleState)] (by decide)).2.1
    { id := "a", config := "c.toml" } (by decide) (by decide) rfl).1 (by decide)
  exact h

end FrpManager
